import Mathlib

/-!
Verification of the comment-driven Terraform execution pipeline.

Shallow embedding of the TypeScript action (src/types.ts, src/config.ts,
src/pr-validation.ts, src/comment-parser.ts, src/terraform.ts, src/main.ts)
and of the Go variant (cmd/terraform-action/main.go, pkg/terraform/executor.go).
JavaScript string primitives (trim, split, startsWith, substring, join) are
re-implemented structurally over lists of characters so that every definition
is executable and kernel-reducible.
-/

namespace TerraformAction

/-! ## JavaScript / Go string primitives, modelled over lists of characters -/

/-- Whitespace class used by JS trim and the regex class: space, tab, CR, LF
(the ASCII subset relevant to the comment grammar). -/
def jsWs (c : Char) : Bool :=
  c = ' ' || c = '\t' || c = '\r' || c = '\n'

/-- JS String.prototype.trim: drop leading and trailing whitespace. -/
def jsTrim (s : List Char) : List Char :=
  ((s.dropWhile jsWs).reverse.dropWhile jsWs).reverse

/-- JS String.prototype.split with a one-character separator: keeps empty
pieces, and the empty string splits to one empty piece. -/
def splitOnChar (sep : Char) : List Char → List (List Char)
  | [] => [[]]
  | c :: rest =>
    match splitOnChar sep rest with
    | [] => [[]]
    | b :: bs => if c = sep then [] :: b :: bs else (c :: b) :: bs

/-- Strip a literal prefix from a character list; `none` when the list does
not start with it.  Models JS startsWith / Go strings.HasPrefix together
with the removal of the matched part. -/
def stripPrefixChars : List Char → List Char → Option (List Char)
  | [], s => some s
  | _ :: _, [] => none
  | p :: ps, c :: cs => if c = p then stripPrefixChars ps cs else none

/-- Go strings.Contains on character lists (needle is the first argument). -/
def hasSubList (needle : List Char) : List Char → Bool
  | [] => (stripPrefixChars needle []).isSome
  | c :: rest => (stripPrefixChars needle (c :: rest)).isSome || hasSubList needle rest

/-- JS Array.prototype.join with a separator. -/
def joinSep (sep : String) : List String → String
  | [] => ""
  | [x] => x
  | x :: y :: xs => x ++ sep ++ joinSep sep (y :: xs)

/-! ## Data model (src/types.ts) -/

/-- Terraform command type ('plan' | 'apply'). -/
inductive TerraformCommand where
  | plan
  | apply
deriving DecidableEq, Repr

/-- PR requirement types ('mergeable' | 'approved'). -/
inductive Requirement where
  | mergeable
  | approved
deriving DecidableEq, Repr

/-- GitHub pull request information (src/types.ts PullRequestInfo). -/
structure PullRequestInfo where
  number : Nat
  owner : String
  repo : String
  isFork : Bool
  mergeable : Bool
  approved : Bool
  sha : String
deriving DecidableEq, Repr

/-- Autoplan configuration for a project (src/types.ts AutoplanConfig). -/
structure AutoplanConfig where
  enabled : Bool
  when_modified : List String
deriving DecidableEq, Repr

/-- Project configuration (src/types.ts ProjectConfig). -/
structure ProjectConfig where
  name : String
  dir : String
  autoplan : Option AutoplanConfig := none
  plan_requirements : Option (List Requirement) := none
  apply_requirements : Option (List Requirement) := none
deriving DecidableEq, Repr

/-- Terraform execution result (src/types.ts TerraformResult). -/
structure TerraformResult where
  exitCode : Nat
  hasChanges : Bool
  stdout : String
  stderr : String
  planFilePath : Option String
deriving DecidableEq, Repr

/-- Result of parsing the argument part of a comment. -/
structure ParsedArgs where
  projects : List String
  args : List String
deriving DecidableEq, Repr

/-- Parsed PR comment (src/types.ts ParsedComment). -/
structure ParsedComment where
  command : TerraformCommand
  projects : List String
  args : List String
deriving DecidableEq, Repr

/-! ## src/config.ts -/

/-- Default requirements per command (src/config.ts getDefaultRequirements). -/
def getDefaultRequirements : TerraformCommand → List Requirement
  | .apply => [.mergeable, .approved]
  | .plan => [.mergeable]

/-! ## src/pr-validation.ts -/

/-- The accumulation loop of validateRequirements: one failure message is
pushed per unmet requirement, in requirement order. -/
def collectFailures (pr : PullRequestInfo) : List Requirement → List String
  | [] => []
  | .mergeable :: rest =>
    if pr.mergeable = false then
      "PR is not mergeable (conflicts or failing checks)" :: collectFailures pr rest
    else collectFailures pr rest
  | .approved :: rest =>
    if pr.approved = false then
      "PR is not approved" :: collectFailures pr rest
    else collectFailures pr rest

/-- src/pr-validation.ts validateRequirements: accumulates all unmet
requirements and throws a single error listing every one of them. -/
def validateRequirements (pr : PullRequestInfo) (requirements : List Requirement) :
    Except String Unit :=
  let failures := collectFailures pr requirements
  if failures.length > 0 then
    .error ("PR requirements not met:\n" ++ joinSep "\n" (failures.map (fun f => "  - " ++ f)))
  else
    .ok ()

/-- src/pr-validation.ts blockForkForApply: throws when an apply is attempted
on a forked PR.  (Defined in the source, but never called from main.ts.) -/
def blockForkForApply (pr : PullRequestInfo) (command : TerraformCommand) :
    Except String Unit :=
  if command = .apply ∧ pr.isFork = true then
    .error ("Terraform apply is blocked on forked PRs for security reasons. " ++
      "Pull requests from forks cannot execute apply commands to prevent " ++
      "unauthorized access to secrets and infrastructure.")
  else
    .ok ()

/-! ## src/comment-parser.ts -/

/-- The tokenizer loop of tokenizeArguments: splits on spaces outside quotes,
treats single- and double-quoted runs as atomic, and strips the quote
characters.  The quote state is (inQuotes, quoteChar). -/
def tokenizeAux : List Char → List Char → Bool → Option Char → List String
  | [], current, _, _ => if current = [] then [] else [String.mk current]
  | c :: rest, current, inQuotes, quoteChar =>
    if (c = '"' ∨ c = '\x27') ∧ inQuotes = false then
      tokenizeAux rest current true (some c)
    else if quoteChar = some c ∧ inQuotes = true then
      tokenizeAux rest current false none
    else if c = ' ' ∧ inQuotes = false then
      if current = [] then tokenizeAux rest [] false quoteChar
      else String.mk current :: tokenizeAux rest [] false quoteChar
    else
      tokenizeAux rest (current ++ [c]) inQuotes quoteChar

/-- src/comment-parser.ts tokenizeArguments. -/
def tokenizeArguments (argsString : String) : List String :=
  tokenizeAux argsString.data [] false none

/-- Whether a token is the special-cased -project=<csv> token. -/
def isProjectToken (t : String) : Bool :=
  (stripPrefixChars "-project=".data t.data).isSome

/-- The csv handling of a -project= value: split on commas, trim each
element, keep the non-empty ones. -/
def splitProjects (v : List Char) : List String :=
  (((splitOnChar ',' v).map jsTrim).filter (fun p => p.length > 0)).map String.mk

/-- The token loop of parseArguments: -project= tokens contribute their csv
elements to `projects`, every other token is passed through in order. -/
def parseArgsLoop : List String → ParsedArgs
  | [] => { projects := [], args := [] }
  | t :: rest =>
    let r := parseArgsLoop rest
    if isProjectToken t then
      { projects := splitProjects (t.data.drop 9) ++ r.projects, args := r.args }
    else
      { projects := r.projects, args := t :: r.args }

/-- src/comment-parser.ts parseArguments (the empty string short-circuits,
matching the JS falsiness test). -/
def parseArguments (argsString : String) : ParsedArgs :=
  if argsString = "" then { projects := [], args := [] }
  else parseArgsLoop (tokenizeArguments argsString)

/-- Matcher for the regex of parseComment applied to the trimmed comment.
Returns the command and the (optional) raw argument string.  The argument
part of the pattern cannot cross a line terminator, while the whitespace
runs can; the unreachable all-whitespace-tail case follows the regex
backtracking. -/
def matchTerraformCommand (t : List Char) : Option (TerraformCommand × Option (List Char)) :=
  match stripPrefixChars "terraform".data t with
  | none => none
  | some r1 =>
    let w1 := r1.takeWhile jsWs
    let r2 := r1.dropWhile jsWs
    if w1 = [] then none
    else
      match (match stripPrefixChars "plan".data r2 with
        | some r3 => some (TerraformCommand.plan, r3)
        | none =>
          match stripPrefixChars "apply".data r2 with
          | some r3 => some (TerraformCommand.apply, r3)
          | none => none) with
      | none => none
      | some (cmd, r3) =>
        if r3 = [] then some (cmd, none)
        else
          let w2 := r3.takeWhile jsWs
          let r4 := r3.dropWhile jsWs
          if w2 = [] then none
          else if r4 = [] then
            match w2.reverse with
            | [] => none
            | last :: prev =>
              if prev ≠ [] ∧ ¬ (last = '\n' ∨ last = '\r') then some (cmd, some [last])
              else none
          else if r4.contains '\n' ∨ r4.contains '\r' then none
          else some (cmd, some r4)

/-- src/comment-parser.ts parseComment: trim, match the command regex, parse
the argument string (missing capture group treated as the empty string). -/
def parseComment (commentBody : String) : Option ParsedComment :=
  let trimmed := jsTrim commentBody.data
  match matchTerraformCommand trimmed with
  | none => none
  | some (cmd, argsOpt) =>
    let pa := parseArguments (String.mk (argsOpt.getD []))
    some { command := cmd, projects := pa.projects, args := pa.args }

/-- src/comment-parser.ts validateProjectNames: the first requested project
missing from the configured names raises an error naming it and listing all
configured names. -/
def validateProjectNames : List String → List String → Except String Unit
  | [], _ => .ok ()
  | project :: rest, configuredProjects =>
    if configuredProjects.contains project then
      validateProjectNames rest configuredProjects
    else
      .error ("Project \x27" ++ project ++ "\x27 not found in configuration. " ++
        "Available projects: " ++ joinSep ", " configuredProjects)

/-! ## src/terraform.ts -/

/-- Outcome of one subprocess invocation under the @actions/exec options of
executeTerraform (ignoreReturnCode true, stdout and stderr captured). -/
structure ExecOutcome where
  exitCode : Nat
  stdout : String
  stderr : String
deriving DecidableEq, Repr

/-- Observable invocations made by the TypeScript executor: the terraform
init step and the tfcmt-wrapped primary operation. -/
inductive Event where
  | initInvoked (workingDir : String)
  | toolInvoked (command : TerraformCommand) (projectName : String)
deriving DecidableEq, Repr

/-- Rendering of the command enum used inside messages. -/
def commandString : TerraformCommand → String
  | .plan => "plan"
  | .apply => "apply"

/-- The deterministic plan output path, path.join(workingDir, tfplan-name). -/
def planFileFor (workingDir projectName : String) : String :=
  workingDir ++ "/tfplan-" ++ projectName

/-- src/terraform.ts executeTerraform.  The two subprocess runs are supplied
as environment inputs: `.error` models a thrown spawn failure, `.ok` a
completed process (any exit code, because ignoreReturnCode is set).  The
source runs init first, then the tfcmt-wrapped command, string-appending
both runs into the captured stdout and stderr; the init exit code is
assigned to `exitCode` but immediately overwritten by the primary run, so
only the primary exit code is interpreted.  Exit code 2 on plan means
changes; only exit code 1 raises. -/
def executeTerraform (command : TerraformCommand) (workingDir projectName : String)
    (additionalArgs : List String) (planFilePath : Option String)
    (initRun mainRun : Except String ExecOutcome) :
    List Event × Except String TerraformResult :=
  let _ := additionalArgs
  let _ := planFilePath
  let resultPlanFilePath : Option String :=
    match command with
    | .plan => some (planFileFor workingDir projectName)
    | .apply => none
  match initRun with
  | .error e =>
    ([Event.initInvoked workingDir],
      .error ("Failed to execute tfcmt/terraform: " ++ e))
  | .ok ir =>
    match mainRun with
    | .error e =>
      ([Event.initInvoked workingDir, Event.toolInvoked command projectName],
        .error ("Failed to execute tfcmt/terraform: " ++ e))
    | .ok mr =>
      let stdout := ir.stdout ++ mr.stdout
      let stderr := ir.stderr ++ mr.stderr
      let exitCode := mr.exitCode
      let hasChanges := command == TerraformCommand.plan && exitCode == 2
      if exitCode == 1 then
        ([Event.initInvoked workingDir, Event.toolInvoked command projectName],
          .error ("Terraform " ++ commandString command ++
            " failed with exit code 1:\n" ++ stderr))
      else
        ([Event.initInvoked workingDir, Event.toolInvoked command projectName],
          .ok { exitCode := exitCode, hasChanges := hasChanges, stdout := stdout,
                stderr := stderr, planFilePath := resultPlanFilePath })

/-! ## src/main.ts -/

/-- Per-project subprocess outcomes, keyed by project name: what the init
run and the tfcmt-wrapped primary run of that project would produce. -/
structure ExecEnv where
  initRun : String → Except String ExecOutcome
  mainRun : String → Except String ExecOutcome

/-- src/main.ts executeProjectCommand: compute the requirement set (explicit
list or the command's default), validate it only when the command is apply
and PR information is present, then execute terraform for the project. -/
def executeProjectCommand (project : ProjectConfig) (command : TerraformCommand)
    (args : List String) (pr : Option PullRequestInfo) (env : ExecEnv) :
    List Event × Except String Unit :=
  let requirements :=
    match command with
    | .plan => project.plan_requirements.getD (getDefaultRequirements .plan)
    | .apply => project.apply_requirements.getD (getDefaultRequirements .apply)
  let validation : Except String Unit :=
    match command, pr with
    | .apply, some prInfo => validateRequirements prInfo requirements
    | _, _ => .ok ()
  match validation with
  | .error e => ([], .error e)
  | .ok _ =>
    let workingDir := project.dir
    let (events, result) :=
      executeTerraform command workingDir project.name args none
        (env.initRun project.name) (env.mainRun project.name)
    (events, result.map (fun _ => ()))

/-- The serial project loop of src/main.ts run(): any thrown error is caught
by the surrounding try/catch, so the first failing project ends the loop
(fail fast) and the remaining projects are not executed. -/
def runProjects : List ProjectConfig → TerraformCommand → List String →
    Option PullRequestInfo → ExecEnv → List Event × Except String Unit
  | [], _, _, _, _ => ([], .ok ())
  | p :: ps, command, args, pr, env =>
    match executeProjectCommand p command args pr env with
    | (events, .error e) => (events, .error e)
    | (events, .ok _) =>
      match runProjects ps command args pr env with
      | (events2, r) => (events ++ events2, r)

/-- src/main.ts run() after comment parsing: validate any requested names
against the configured names, select the target projects (all of them when
none were requested), fetch PR information only for apply, and run the
projects serially.  `prFetched` is what getPullRequestInfo would return. -/
def runMain (projects : List ProjectConfig) (parsedComment : ParsedComment)
    (prFetched : PullRequestInfo) (env : ExecEnv) :
    List Event × Except String Unit :=
  let allNames := projects.map (fun p => p.name)
  let validation :=
    if parsedComment.projects.length > 0 then
      validateProjectNames parsedComment.projects allNames
    else .ok ()
  match validation with
  | .error e => ([], .error e)
  | .ok _ =>
    let targetProjectNames :=
      if parsedComment.projects.length > 0 then parsedComment.projects else allNames
    let pr : Option PullRequestInfo :=
      match parsedComment.command with
      | .apply => some prFetched
      | .plan => none
    runProjects (targetProjectNames.filterMap (fun n => projects.find? (fun p => p.name == n)))
      parsedComment.command parsedComment.args pr env

/-! ## Go variant: cmd/terraform-action/main.go and pkg/terraform/executor.go -/

/-- The fields of pkg/config.Project used by main.go and executor.go. -/
structure GoProject where
  name : String
  dir : String
  branch : String
deriving DecidableEq, Repr

/-- Go strings.Trim(pattern, "/"). -/
def trimSlashes (s : List Char) : List Char :=
  ((s.dropWhile (fun c => c = '/')).reverse.dropWhile (fun c => c = '/')).reverse

/-- main.go matchBranch: trims slashes, "*" matches everything, otherwise a
substring containment check. -/
def matchBranch (branch pattern : String) : Bool :=
  let pattern2 := trimSlashes pattern.data
  if pattern2 = "*".data then true
  else hasSubList pattern2 branch.data

/-- main.go filterProjects: a project is kept unless the non-empty filter
matches neither its name nor its dir, or its branch pattern does not match,
or a non-empty changed-file list has no file under its dir. -/
def filterProjects : List GoProject → String → List String → String → List GoProject
  | [], _, _, _ => []
  | project :: rest, projectFilter, changedFiles, branch =>
    if projectFilter ≠ "" ∧ project.name ≠ projectFilter ∧ project.dir ≠ projectFilter then
      filterProjects rest projectFilter changedFiles branch
    else if project.branch ≠ "" ∧ matchBranch branch project.branch = false then
      filterProjects rest projectFilter changedFiles branch
    else if changedFiles.length > 0 ∧
        changedFiles.any (fun f => (stripPrefixChars project.dir.data f.data).isSome) = false then
      filterProjects rest projectFilter changedFiles branch
    else
      project :: filterProjects rest projectFilter changedFiles branch

/-- Outcome of each Go subprocess run, keyed by the terraform argument list
(pkg/terraform/executor.go runTerraformCommand has no captured output). -/
structure GoEnv where
  runResult : List String → Except String Unit

/-- executor.go runTerraformCommand: wraps a failed run into the
"terraform command failed" error. -/
def goRunTerraformCommand (env : GoEnv) (args : List String) : Except String Unit :=
  match env.runResult args with
  | .error e => .error ("terraform command failed: " ++ e)
  | .ok _ => .ok ()

/-- executor.go Execute: init runs first and aborts the project on failure;
then the primary command runs.  The trace lists the invoked argument
vectors in order. -/
def goExecute (env : GoEnv) (command : String) (args : List String) :
    List (List String) × Except String Unit :=
  let initArgs := ["init", "-input=false"]
  match goRunTerraformCommand env initArgs with
  | .error e => ([initArgs], .error e)
  | .ok _ =>
    match command with
    | "plan" =>
      let a := ["plan", "-input=false", "-no-color"] ++ args
      ([initArgs, a], goRunTerraformCommand env a)
    | "apply" =>
      let a := ["apply", "-input=false", "-no-color", "-auto-approve"] ++ args
      ([initArgs, a], goRunTerraformCommand env a)
    | "import" =>
      let a := ["import", "-input=false", "-no-color"] ++ args
      ([initArgs, a], goRunTerraformCommand env a)
    | other =>
      ([initArgs], .error ("unknown command: " ++ other))

/-! ## Specification-side helper definitions -/

deriving instance DecidableEq for Except

/-- Whether a single requirement is unmet for a PR snapshot (spec reading of
the per-requirement conditions). -/
def unmetRequirement (pr : PullRequestInfo) : Requirement → Bool
  | .mergeable => !pr.mergeable
  | .approved => !pr.approved

/-- The failure message the validator pushes for each unmet requirement. -/
def failureText : Requirement → String
  | .mergeable => "PR is not mergeable (conflicts or failing checks)"
  | .approved => "PR is not approved"

/-! ## Helper lemmas -/

theorem string_data_append (a b : String) : (a ++ b).data = a.data ++ b.data := rfl

theorem joinSep_mem_infix (sep x : String) :
    ∀ (l : List String), x ∈ l → x.data <:+: (joinSep sep l).data := by
  intro l
  induction l with
  | nil => intro h; cases h
  | cons y tail ih =>
    intro hmem
    cases tail with
    | nil =>
      have hx : x = y := by simpa using hmem
      subst hx
      exact List.infix_refl _
    | cons z rest =>
      rcases List.mem_cons.mp hmem with hxy | hxs
      · subst hxy
        show x.data <:+: (x ++ sep ++ joinSep sep (z :: rest)).data
        rw [string_data_append, string_data_append, List.append_assoc]
        exact (List.prefix_append _ _).isInfix
      · have h := ih hxs
        show x.data <:+: (y ++ sep ++ joinSep sep (z :: rest)).data
        rw [string_data_append]
        exact h.trans (List.suffix_append _ _).isInfix

theorem collectFailures_eq (pr : PullRequestInfo) (reqs : List Requirement) :
    collectFailures pr reqs = (reqs.filter (unmetRequirement pr)).map failureText := by
  induction reqs with
  | nil => rfl
  | cons r rest ih =>
    cases r with
    | mergeable =>
      by_cases h : pr.mergeable = false <;>
        simp [collectFailures, unmetRequirement, failureText, h, ih]
    | approved =>
      by_cases h : pr.approved = false <;>
        simp [collectFailures, unmetRequirement, failureText, h, ih]

theorem executeTerraform_events_ok (command : TerraformCommand)
    (workingDir projectName : String) (args : List String) (pfp : Option String)
    (ir : ExecOutcome) (mainRun : Except String ExecOutcome) :
    (executeTerraform command workingDir projectName args pfp (.ok ir) mainRun).1 =
      [Event.initInvoked workingDir, Event.toolInvoked command projectName] := by
  cases mainRun with
  | error e => rfl
  | ok mr =>
    show (if (mr.exitCode == 1) = true then _ else _ : List Event × _).1 = _
    split <;> rfl

/-! ## Claim theorems -/

/-- Claim C4 (amended): for an apply invocation whose two subprocess runs
complete, exit code 1 raises the execution error carrying the captured
standard error, while every other exit code — including non-zero codes such
as 2 — returns a successful result; the apply result never has hasChanges
set to true. -/
theorem c4_apply_exit_code_interpretation (workingDir projectName : String)
    (args : List String) (pfp : Option String) (ir mr : ExecOutcome) :
    (mr.exitCode = 1 →
      executeTerraform .apply workingDir projectName args pfp (.ok ir) (.ok mr) =
        ([Event.initInvoked workingDir, Event.toolInvoked .apply projectName],
          .error ("Terraform apply failed with exit code 1:\n" ++ (ir.stderr ++ mr.stderr)))) ∧
    (mr.exitCode ≠ 1 →
      executeTerraform .apply workingDir projectName args pfp (.ok ir) (.ok mr) =
        ([Event.initInvoked workingDir, Event.toolInvoked .apply projectName],
          .ok { exitCode := mr.exitCode, hasChanges := false,
                stdout := ir.stdout ++ mr.stdout, stderr := ir.stderr ++ mr.stderr,
                planFilePath := none })) := by
  constructor
  · intro h
    simp [executeTerraform, commandString, h]
  · intro h
    simp [executeTerraform, commandString, h]

/-- Witness for C4: exit code 0 succeeds, exit code 1 fails with the stderr
attached. -/
theorem c4_apply_witness :
    executeTerraform .apply "wd" "p" [] none (.ok ⟨0, "", ""⟩) (.ok ⟨0, "out", "err"⟩) =
      ([Event.initInvoked "wd", Event.toolInvoked .apply "p"],
        .ok { exitCode := 0, hasChanges := false, stdout := "out", stderr := "err",
              planFilePath := none }) ∧
    executeTerraform .apply "wd" "p" [] none (.ok ⟨0, "", ""⟩) (.ok ⟨1, "", "boom"⟩) =
      ([Event.initInvoked "wd", Event.toolInvoked .apply "p"],
        .error "Terraform apply failed with exit code 1:\nboom") := by
  constructor
  · have h := (c4_apply_exit_code_interpretation "wd" "p" [] none ⟨0, "", ""⟩ ⟨0, "out", "err"⟩).2
      (by decide)
    simpa using h
  · have h := (c4_apply_exit_code_interpretation "wd" "p" [] none ⟨0, "", ""⟩ ⟨1, "", "boom"⟩).1 rfl
    simpa using h

/-- Counterexample to C4 as stated: an apply whose primary run exits with
code 2 is not a hard failure — the executor returns a successful result. -/
theorem c4_apply_exit2_counterexample :
    executeTerraform .apply "wd" "p" [] none (.ok ⟨0, "", ""⟩) (.ok ⟨2, "o", "e"⟩) =
      ([Event.initInvoked "wd", Event.toolInvoked .apply "p"],
        .ok { exitCode := 2, hasChanges := false, stdout := "o", stderr := "e",
              planFilePath := none }) := by decide

/-- Claim C5 (amended): for a plan invocation whose two subprocess runs
complete, exit code 0 yields success without changes, exit code 2 yields
success with hasChanges true and no error, exit code 1 raises the execution
error carrying the captured standard error, and any other exit code (such
as 3) also returns without error, with hasChanges false. -/
theorem c5_plan_exit_code_interpretation (workingDir projectName : String)
    (args : List String) (pfp : Option String) (ir mr : ExecOutcome) :
    (mr.exitCode = 2 →
      executeTerraform .plan workingDir projectName args pfp (.ok ir) (.ok mr) =
        ([Event.initInvoked workingDir, Event.toolInvoked .plan projectName],
          .ok { exitCode := 2, hasChanges := true,
                stdout := ir.stdout ++ mr.stdout, stderr := ir.stderr ++ mr.stderr,
                planFilePath := some (planFileFor workingDir projectName) })) ∧
    (mr.exitCode = 1 →
      executeTerraform .plan workingDir projectName args pfp (.ok ir) (.ok mr) =
        ([Event.initInvoked workingDir, Event.toolInvoked .plan projectName],
          .error ("Terraform plan failed with exit code 1:\n" ++ (ir.stderr ++ mr.stderr)))) ∧
    (mr.exitCode ≠ 1 → mr.exitCode ≠ 2 →
      executeTerraform .plan workingDir projectName args pfp (.ok ir) (.ok mr) =
        ([Event.initInvoked workingDir, Event.toolInvoked .plan projectName],
          .ok { exitCode := mr.exitCode, hasChanges := false,
                stdout := ir.stdout ++ mr.stdout, stderr := ir.stderr ++ mr.stderr,
                planFilePath := some (planFileFor workingDir projectName) })) := by
  refine ⟨?_, ?_, ?_⟩
  · intro h
    simp [executeTerraform, commandString, h]
  · intro h
    simp [executeTerraform, commandString, h]
  · intro h1 h2
    simp [executeTerraform, commandString, h1, h2]

/-- Witness for C5: exit codes 0, 2 and 1 at concrete inputs. -/
theorem c5_plan_witness :
    executeTerraform .plan "wd" "p" [] none (.ok ⟨0, "", ""⟩) (.ok ⟨2, "o", "e"⟩) =
      ([Event.initInvoked "wd", Event.toolInvoked .plan "p"],
        .ok { exitCode := 2, hasChanges := true, stdout := "o", stderr := "e",
              planFilePath := some "wd/tfplan-p" }) ∧
    executeTerraform .plan "wd" "p" [] none (.ok ⟨0, "", ""⟩) (.ok ⟨1, "", "boom"⟩) =
      ([Event.initInvoked "wd", Event.toolInvoked .plan "p"],
        .error "Terraform plan failed with exit code 1:\nboom") ∧
    executeTerraform .plan "wd" "p" [] none (.ok ⟨0, "", ""⟩) (.ok ⟨0, "o", "e"⟩) =
      ([Event.initInvoked "wd", Event.toolInvoked .plan "p"],
        .ok { exitCode := 0, hasChanges := false, stdout := "o", stderr := "e",
              planFilePath := some "wd/tfplan-p" }) := by
  refine ⟨?_, ?_, ?_⟩
  · have h := (c5_plan_exit_code_interpretation "wd" "p" [] none ⟨0, "", ""⟩ ⟨2, "o", "e"⟩).1 rfl
    simpa [planFileFor] using h
  · have h := (c5_plan_exit_code_interpretation "wd" "p" [] none ⟨0, "", ""⟩ ⟨1, "", "boom"⟩).2.1 rfl
    simpa using h
  · have h := (c5_plan_exit_code_interpretation "wd" "p" [] none ⟨0, "", ""⟩ ⟨0, "o", "e"⟩).2.2
      (by decide) (by decide)
    simpa [planFileFor] using h

/-- Counterexample to C5 as stated: a plan whose primary run exits with code
3 does not raise an execution error — the executor returns a successful
result with hasChanges false. -/
theorem c5_plan_exit3_counterexample :
    executeTerraform .plan "wd" "p" [] none (.ok ⟨0, "", ""⟩) (.ok ⟨3, "o", "e"⟩) =
      ([Event.initInvoked "wd", Event.toolInvoked .plan "p"],
        .ok { exitCode := 3, hasChanges := false, stdout := "o", stderr := "e",
              planFilePath := some "wd/tfplan-p" }) := by decide

/-- Claim C6 (amended): the initialization step always runs before the
primary operation; a thrown spawn failure of init aborts the project before
the primary operation, and the Go executor likewise aborts on any init
failure — but in the TypeScript executor a completed init process never
aborts, whatever its exit code: the primary operation is still invoked and
init's exit status is discarded. -/
theorem c6_init_before_primary (command : TerraformCommand)
    (workingDir projectName : String) (args : List String) (pfp : Option String) :
    (∀ (e : String) (mainRun : Except String ExecOutcome),
      executeTerraform command workingDir projectName args pfp (.error e) mainRun =
        ([Event.initInvoked workingDir],
          .error ("Failed to execute tfcmt/terraform: " ++ e))) ∧
    (∀ (ir : ExecOutcome) (mainRun : Except String ExecOutcome),
      (executeTerraform command workingDir projectName args pfp (.ok ir) mainRun).1 =
        [Event.initInvoked workingDir, Event.toolInvoked command projectName]) ∧
    (∀ (env : GoEnv) (goCommand : String) (goArgs : List String) (e : String),
      env.runResult ["init", "-input=false"] = .error e →
      goExecute env goCommand goArgs =
        ([["init", "-input=false"]], .error ("terraform command failed: " ++ e))) := by
  refine ⟨?_, ?_, ?_⟩
  · intro e mainRun
    rfl
  · intro ir mainRun
    exact executeTerraform_events_ok command workingDir projectName args pfp ir mainRun
  · intro env goCommand goArgs e h
    simp [goExecute, goRunTerraformCommand, h]

/-- Witness for C6: a spawn failure aborts before the primary, a completed
init with exit code 1 does not, and the Go executor aborts on init error. -/
theorem c6_init_witness :
    executeTerraform .plan "wd" "p" [] none (.error "spawn failed") (.ok ⟨0, "", ""⟩) =
      ([Event.initInvoked "wd"], .error "Failed to execute tfcmt/terraform: spawn failed") ∧
    (executeTerraform .plan "wd" "p" [] none (.ok ⟨1, "", "init error"⟩) (.ok ⟨0, "", ""⟩)).1 =
      [Event.initInvoked "wd", Event.toolInvoked .plan "p"] ∧
    goExecute ⟨fun a => if a = ["init", "-input=false"] then .error "boom" else .ok ()⟩
        "plan" [] =
      ([["init", "-input=false"]], .error "terraform command failed: boom") := by
  refine ⟨?_, ?_, ?_⟩
  · have h := (c6_init_before_primary .plan "wd" "p" [] none).1 "spawn failed" (.ok ⟨0, "", ""⟩)
    simpa using h
  · exact (c6_init_before_primary .plan "wd" "p" [] none).2.1 ⟨1, "", "init error"⟩ (.ok ⟨0, "", ""⟩)
  · exact (c6_init_before_primary .plan "wd" "p" [] none).2.2
      ⟨fun a => if a = ["init", "-input=false"] then .error "boom" else .ok ()⟩
      "plan" [] "boom" (by decide)

/-- Counterexample to C6 as stated: when terraform init completes with exit
code 1 (a failed initialization), the TypeScript executor still invokes the
primary plan operation and returns its result as a success — the project's
execution is not aborted. -/
theorem c6_init_failure_counterexample :
    executeTerraform .plan "wd" "p" [] none (.ok ⟨1, "", "init error"⟩) (.ok ⟨0, "plan out", ""⟩) =
      ([Event.initInvoked "wd", Event.toolInvoked .plan "p"],
        .ok { exitCode := 0, hasChanges := false, stdout := "plan out",
              stderr := "init error", planFilePath := some "wd/tfplan-p" }) := by decide

set_option maxRecDepth 16384 in
/-- Claim C1 (code bug): an apply on a forked PR whose snapshot satisfies the
configured requirements is executed — the pipeline emits the tool
invocation and succeeds — even though the defined (but never called)
blockForkForApply guard would have raised the fork-blocked error. -/
theorem c1_fork_apply_reaches_orchestrator :
    blockForkForApply ⟨42, "o", "r", true, true, true, "s"⟩ .apply =
      .error ("Terraform apply is blocked on forked PRs for security reasons. " ++
        "Pull requests from forks cannot execute apply commands to prevent " ++
        "unauthorized access to secrets and infrastructure.") ∧
    runMain [⟨"prod", "infra/prod", none, none, none⟩] ⟨.apply, [], []⟩
        ⟨42, "o", "r", true, true, true, "s"⟩
        ⟨fun _ => .ok ⟨0, "", ""⟩, fun _ => .ok ⟨0, "", ""⟩⟩ =
      ([Event.initInvoked "infra/prod", Event.toolInvoked .apply "prod"], .ok ()) := by
  constructor
  · decide
  · decide

/-- Claim C2 (amended): in the TypeScript pipeline a requirements-not-met
failure on the first project fails the whole run — no project is executed
(no events are emitted) and the run ends with that error, so execution does
not continue to the remaining in-scope projects. -/
theorem c2_requirement_failure_aborts_run (p : ProjectConfig) (ps : List ProjectConfig)
    (args : List String) (prInfo : PullRequestInfo) (env : ExecEnv) (m : String)
    (h : validateRequirements prInfo
      (p.apply_requirements.getD (getDefaultRequirements .apply)) = .error m) :
    runProjects (p :: ps) .apply args (some prInfo) env = ([], .error m) := by
  have hp : executeProjectCommand p .apply args (some prInfo) env = ([], .error m) := by
    simp [executeProjectCommand, h]
  simp [runProjects, hp]

/-- Witness for C2: two projects, the first failing the mergeable
requirement, abort the run with no tool invocation for either project. -/
theorem c2_requirement_failure_witness :
    runProjects [⟨"p1", "d1", none, none, none⟩, ⟨"p2", "d2", none, none, none⟩]
        .apply [] (some ⟨1, "o", "r", false, false, true, "s"⟩)
        ⟨fun _ => .ok ⟨0, "", ""⟩, fun _ => .ok ⟨0, "", ""⟩⟩ =
      ([], .error "PR requirements not met:\n  - PR is not mergeable (conflicts or failing checks)") :=
  c2_requirement_failure_aborts_run ⟨"p1", "d1", none, none, none⟩
    [⟨"p2", "d2", none, none, none⟩] [] ⟨1, "o", "r", false, false, true, "s"⟩
    ⟨fun _ => .ok ⟨0, "", ""⟩, fun _ => .ok ⟨0, "", ""⟩⟩ _ (by decide)

/-- Counterexample to C2 as stated: with two in-scope projects and a
requirements-not-met failure on the first, the run produces no events for
the second project and ends in the error — execution does not continue. -/
theorem c2_run_continues_counterexample :
    runMain [⟨"p1", "d1", none, none, none⟩, ⟨"p2", "d2", none, none, none⟩]
        ⟨.apply, [], []⟩ ⟨1, "o", "r", false, false, true, "s"⟩
        ⟨fun _ => .ok ⟨0, "", ""⟩, fun _ => .ok ⟨0, "", ""⟩⟩ =
      ([], .error "PR requirements not met:\n  - PR is not mergeable (conflicts or failing checks)") := by
  decide

/-- Claim C3 (amended): the requirement gate runs before the tool only for
apply — a failing apply validation yields the error with no tool invocation
— while a plan is executed with no requirement validation at all: whenever
its two subprocess runs complete, the plan tool invocation happens whatever
the project's requirement list and the PR snapshot. -/
theorem c3_gate_only_for_apply :
    (∀ (project : ProjectConfig) (args : List String) (prInfo : PullRequestInfo)
      (env : ExecEnv) (m : String),
      validateRequirements prInfo
        (project.apply_requirements.getD (getDefaultRequirements .apply)) = .error m →
      executeProjectCommand project .apply args (some prInfo) env = ([], .error m)) ∧
    (∀ (project : ProjectConfig) (args : List String) (pr : Option PullRequestInfo)
      (env : ExecEnv) (ir : ExecOutcome),
      env.initRun project.name = .ok ir →
      Event.toolInvoked .plan project.name ∈
        (executeProjectCommand project .plan args pr env).1) := by
  constructor
  · intro project args prInfo env m h
    simp [executeProjectCommand, h]
  · intro project args pr env ir h
    have hunfold : executeProjectCommand project .plan args pr env =
        ((executeTerraform .plan project.dir project.name args none
            (env.initRun project.name) (env.mainRun project.name)).1,
          ((executeTerraform .plan project.dir project.name args none
            (env.initRun project.name) (env.mainRun project.name)).2).map (fun _ => ())) := rfl
    have hev : (executeProjectCommand project .plan args pr env).1 =
        [Event.initInvoked project.dir, Event.toolInvoked .plan project.name] := by
      rw [hunfold, h]
      exact executeTerraform_events_ok .plan project.dir project.name args none ir
        (env.mainRun project.name)
    rw [hev]
    simp

/-- Witness for C3: a failing apply validation produces no invocation, while
a plan on a project requiring mergeable runs even though the PR is not
mergeable. -/
theorem c3_gate_witness :
    executeProjectCommand ⟨"p1", "d1", none, none, none⟩ .apply []
        (some ⟨1, "o", "r", false, false, true, "s"⟩)
        ⟨fun _ => .ok ⟨0, "", ""⟩, fun _ => .ok ⟨0, "", ""⟩⟩ =
      ([], .error "PR requirements not met:\n  - PR is not mergeable (conflicts or failing checks)") ∧
    Event.toolInvoked .plan "prod" ∈
      (executeProjectCommand ⟨"prod", "d", none, some [.mergeable], none⟩ .plan []
        (some ⟨1, "o", "r", false, false, false, "s"⟩)
        ⟨fun _ => .ok ⟨0, "", ""⟩, fun _ => .ok ⟨0, "", ""⟩⟩).1 := by
  constructor
  · exact c3_gate_only_for_apply.1 ⟨"p1", "d1", none, none, none⟩ []
      ⟨1, "o", "r", false, false, true, "s"⟩
      ⟨fun _ => .ok ⟨0, "", ""⟩, fun _ => .ok ⟨0, "", ""⟩⟩ _ (by decide)
  · exact c3_gate_only_for_apply.2 ⟨"prod", "d", none, some [.mergeable], none⟩ []
      (some ⟨1, "o", "r", false, false, false, "s"⟩)
      ⟨fun _ => .ok ⟨0, "", ""⟩, fun _ => .ok ⟨0, "", ""⟩⟩ ⟨0, "", ""⟩ rfl

/-- Counterexample to C3 as stated: a plan on a project whose requirement set
contains mergeable is executed even though the PR snapshot has mergeable
false — the pipeline emits the plan invocation and succeeds. -/
theorem c3_plan_executes_counterexample :
    runMain [⟨"prod", "d", none, some [.mergeable], none⟩] ⟨.plan, [], []⟩
        ⟨1, "o", "r", false, false, false, "s"⟩
        ⟨fun _ => .ok ⟨0, "", ""⟩, fun _ => .ok ⟨0, "", ""⟩⟩ =
      ([Event.initInvoked "d", Event.toolInvoked .plan "prod"], .ok ()) := by decide

/-- Claim C7 (confirmed): the requirement gate evaluates every requirement —
validation succeeds exactly when none is unmet — and on failure the single
error message contains the failure text of every unmet requirement in the
list, not just the first. -/

theorem c7_requirement_failures_accumulate : ∀ (pr : PullRequestInfo) (requirements : List Requirement),
    (validateRequirements pr requirements = .ok () ↔
      ∀ r ∈ requirements, unmetRequirement pr r = false) ∧
    (∀ m, validateRequirements pr requirements = .error m →
      ∀ r ∈ requirements, unmetRequirement pr r = true → (failureText r).data <:+: m.data) := by
  intro pr requirements
  have hcf := collectFailures_eq pr requirements
  constructor
  · by_cases hf : collectFailures pr requirements = []
    · simp only [validateRequirements, hf]
      simp only [List.length_nil, gt_iff_lt, Nat.lt_irrefl, if_false]
      rw [hcf] at hf
      have h2 : List.filter (unmetRequirement pr) requirements = [] := by
        have := List.map_eq_nil_iff.mp hf
        exact this
      constructor
      · intro _ r hr
        by_contra hc
        have : r ∈ List.filter (unmetRequirement pr) requirements :=
          List.mem_filter.mpr ⟨hr, by simpa using hc⟩
        rw [h2] at this
        cases this
      · intro _
        trivial
    · simp only [validateRequirements]
      have hlen : (collectFailures pr requirements).length > 0 :=
        List.length_pos.mpr hf
      simp only [hlen, if_true]
      constructor
      · intro h
        cases h
      · intro hall
        exfalso
        apply hf
        rw [hcf]
        have : List.filter (unmetRequirement pr) requirements = [] := by
          apply List.filter_eq_nil_iff.mpr
          intro a ha
          simp [hall a ha]
        rw [this]
        rfl
  · intro m hm r hr hunmet
    have hmem : failureText r ∈ collectFailures pr requirements := by
      rw [hcf]
      exact List.mem_map_of_mem _ (List.mem_filter.mpr ⟨hr, hunmet⟩)
    have hmsg : m = "PR requirements not met:\n" ++
        joinSep "\n" ((collectFailures pr requirements).map (fun f => "  - " ++ f)) := by
      by_cases hf : collectFailures pr requirements = []
      · rw [hf] at hmem; cases hmem
      · have hlen : (collectFailures pr requirements).length > 0 := List.length_pos.mpr hf
        simp only [validateRequirements, hlen, if_true] at hm
        cases hm
        rfl
    have h1 : (failureText r).data <:+: ("  - " ++ failureText r).data := by
      rw [string_data_append]
      exact (List.suffix_append _ _).isInfix
    have h2 : ("  - " ++ failureText r).data <:+:
        (joinSep "\n" ((collectFailures pr requirements).map (fun f => "  - " ++ f))).data :=
      joinSep_mem_infix _ _ _ (List.mem_map_of_mem _ hmem)
    rw [hmsg, string_data_append]
    exact (h1.trans h2).trans (List.suffix_append _ _).isInfix

/-- Witness for C7: with mergeable and approved both false and requirements
[mergeable, approved], the single error message mentions both unmet
conditions. -/
theorem c7_accumulate_witness :
    validateRequirements ⟨1, "o", "r", false, false, false, "s"⟩ [.mergeable, .approved] =
      .error ("PR requirements not met:\n  - PR is not mergeable (conflicts or failing checks)\n  - PR is not approved") ∧
    "PR is not mergeable (conflicts or failing checks)".data <:+:
      ("PR requirements not met:\n  - PR is not mergeable (conflicts or failing checks)\n  - PR is not approved" : String).data ∧
    "PR is not approved".data <:+:
      ("PR requirements not met:\n  - PR is not mergeable (conflicts or failing checks)\n  - PR is not approved" : String).data := by
  refine ⟨by decide, ?_, ?_⟩
  · exact (c7_requirement_failures_accumulate ⟨1, "o", "r", false, false, false, "s"⟩
      [.mergeable, .approved]).2 _ (by decide) .mergeable (by decide) (by decide)
  · exact (c7_requirement_failures_accumulate ⟨1, "o", "r", false, false, false, "s"⟩
      [.mergeable, .approved]).2 _ (by decide) .approved (by decide) (by decide)

/-- Claim C8 (confirmed): a -project=<csv> token yields the project list by
splitting on commas, trimming, and dropping empty elements (so
-project=prod,,staging, gives [prod, staging] and -project= gives the empty
list, neither failing), and every non-project token is passed through
verbatim, in original order. -/
theorem c8_project_csv_extraction :
    parseComment "terraform plan -project=prod,,staging," =
      some { command := .plan, projects := ["prod", "staging"], args := [] } ∧
    parseComment "terraform plan -project=" =
      some { command := .plan, projects := [], args := [] } ∧
    (∀ (argsString : String),
      (parseArguments argsString).args =
        (tokenizeArguments argsString).filter (fun t => !isProjectToken t)) ∧
    (∀ (argsString : String),
      (parseArguments argsString).projects =
        ((tokenizeArguments argsString).filter (fun t => isProjectToken t)).flatMap
          (fun t => splitProjects (t.data.drop 9))) := by
  have hargs : ∀ (ts : List String),
      (parseArgsLoop ts).args = ts.filter (fun t => !isProjectToken t) := by
    intro ts
    induction ts with
    | nil => rfl
    | cons t rest ih =>
      by_cases h : isProjectToken t <;> simp [parseArgsLoop, h, ih, List.filter]
  have hprojects : ∀ (ts : List String),
      (parseArgsLoop ts).projects =
        (ts.filter (fun t => isProjectToken t)).flatMap
          (fun t => splitProjects (t.data.drop 9)) := by
    intro ts
    induction ts with
    | nil => rfl
    | cons t rest ih =>
      by_cases h : isProjectToken t <;> simp [parseArgsLoop, h, ih, List.filter]
  refine ⟨by decide, by decide, ?_, ?_⟩
  · intro s
    by_cases hs : s = ""
    · subst hs; rfl
    · simp only [parseArguments, hs, if_false]
      exact hargs _
  · intro s
    by_cases hs : s = ""
    · subst hs; rfl
    · simp only [parseArguments, hs, if_false]
      exact hprojects _

theorem tokenizeAux_inQuotes_unclosed (q : Char) :
    ∀ (rest cur : List Char), q ∉ rest →
      tokenizeAux rest cur true (some q) =
        if cur ++ rest = [] then [] else [String.mk (cur ++ rest)] := by
  intro rest
  induction rest with
  | nil =>
    intro cur _
    simp [tokenizeAux]
  | cons c cs ih =>
    intro cur h
    simp only [List.mem_cons, not_or] at h
    simp only [tokenizeAux]
    rw [if_neg (show ¬(some q = some c ∧ True) by simp [h.1])]
    rw [ih (cur ++ [c]) h.2]
    simp

theorem tokenizeAux_plain_run :
    ∀ (pre rest cur : List Char),
      (∀ c ∈ pre, ¬(c = '"' ∨ c = '\x27' ∨ c = ' ')) →
      tokenizeAux (pre ++ rest) cur false none = tokenizeAux rest (cur ++ pre) false none := by
  intro pre
  induction pre with
  | nil => intro rest cur _; simp
  | cons c cs ih =>
    intro rest cur hpre
    have hc := hpre c (List.mem_cons_self _ _)
    simp only [not_or] at hc
    rw [List.cons_append]
    simp only [tokenizeAux]
    rw [if_neg (show ¬((c = '"' ∨ c = '\x27') ∧ True) by simp [hc.1, hc.2.1])]
    rw [if_neg (show ¬(c = ' ' ∧ True) by simp [hc.2.2])]
    rw [ih rest (cur ++ [c]) (fun a ha => hpre a (List.mem_cons_of_mem _ ha))]
    simp

/-- Claim C10 (confirmed): the tokenizer is total on every input, and an
unterminated quoted substring is not an error: the opening quote character
is stripped and the token extends to the end of the input (so tokenizing a
prefix of plain characters followed by an unclosed quote yields the single
token made of the prefix and the quoted tail). -/
theorem c10_tokenizer_unterminated_quote :
    ∀ (pre rest : List Char) (q : Char),
      (q = '"' ∨ q = '\x27') →
      (∀ c ∈ pre, ¬(c = '"' ∨ c = '\x27' ∨ c = ' ')) →
      q ∉ rest →
      tokenizeArguments (String.mk (pre ++ q :: rest)) =
        if pre ++ rest = [] then [] else [String.mk (pre ++ rest)] := by
  intro pre rest q hq hpre hrest
  show tokenizeAux (pre ++ q :: rest) [] false none = _
  rw [tokenizeAux_plain_run pre (q :: rest) [] hpre]
  simp only [List.nil_append]
  have hopen : tokenizeAux (q :: rest) pre false none = tokenizeAux rest pre true (some q) := by
    rcases hq with h | h <;> subst h <;> simp [tokenizeAux]
  rw [hopen, tokenizeAux_inQuotes_unclosed q rest pre hrest]

/-- Witness for C10: tokenizing -var="foo bar (unterminated double quote)
yields the single token -var=foo bar, the quote stripped and the token
running to the end of the input. -/
theorem c10_tokenizer_witness : tokenizeArguments "-var=\"foo bar" = ["-var=foo bar"] := by
  have h := c10_tokenizer_unterminated_quote "-var=".data "foo bar".data '"'
    (Or.inl rfl) (by decide) (by decide)
  simpa using h

/-- Claim C9 (amended): the TypeScript resolution accepts a requested token
exactly when it equals a configured project name (directories are not
consulted), rejecting any other token with the unknown-project error; the
Go filterProjects accepts a non-empty filter matching either the project
name or its directory, and silently drops non-matching projects instead of
raising an unknown-project error. -/
theorem c9_name_and_dir_resolution :
    (∀ (requestedProjects configuredProjects : List String),
      validateProjectNames requestedProjects configuredProjects = .ok () ↔
        ∀ t ∈ requestedProjects, t ∈ configuredProjects) ∧
    (∀ (projects : List GoProject) (projectFilter : String),
      projectFilter ≠ "" →
      (∀ p ∈ projects, p.branch = "") →
      filterProjects projects projectFilter [] "" =
        projects.filter (fun p => p.name == projectFilter || p.dir == projectFilter)) := by
  constructor
  · intro requestedProjects
    induction requestedProjects with
    | nil => intro cfg; simp [validateProjectNames]
    | cons p rest ih =>
      intro cfg
      by_cases hc : cfg.contains p
      · have hmem : p ∈ cfg := by
          simpa using hc
        simp [validateProjectNames, hc, ih cfg, hmem]
      · have hmem : ¬(p ∈ cfg) := by
          simpa using hc
        simp [validateProjectNames, hc, hmem]
  · intro projects projectFilter hpf hbr
    induction projects with
    | nil => rfl
    | cons p rest ih =>
      have hb := hbr p (List.mem_cons_self _ _)
      have ihc := ih (fun a ha => hbr a (List.mem_cons_of_mem _ ha))
      by_cases h1 : p.name = projectFilter
      · rw [show filterProjects (p :: rest) projectFilter [] "" =
            p :: filterProjects rest projectFilter [] "" by
          simp only [filterProjects]
          rw [if_neg (by simp [h1])]
          rw [if_neg (by simp [hb])]
          rw [if_neg (by simp)]]
        simp [List.filter, h1, ihc]
      · by_cases h2 : p.dir = projectFilter
        · rw [show filterProjects (p :: rest) projectFilter [] "" =
              p :: filterProjects rest projectFilter [] "" by
            simp only [filterProjects]
            rw [if_neg (by simp [h2])]
            rw [if_neg (by simp [hb])]
            rw [if_neg (by simp)]]
          simp [List.filter, h1, h2, ihc]
        · rw [show filterProjects (p :: rest) projectFilter [] "" =
              filterProjects rest projectFilter [] "" by
            simp only [filterProjects]
            rw [if_pos ⟨hpf, h1, h2⟩]]
          have hfalse : (p.name == projectFilter || p.dir == projectFilter) = false := by
            simp [h1, h2]
          simp [List.filter, hfalse, ihc]

/-- Witness for C9: a name token is accepted by the TypeScript validation,
and a directory token is matched by the Go filter. -/
theorem c9_resolution_witness :
    validateProjectNames ["prod"] ["prod"] = .ok () ∧
    filterProjects [⟨"prod", "infra/prod", ""⟩] "infra/prod" [] "" =
      [⟨"prod", "infra/prod", ""⟩] := by
  constructor
  · exact (c9_name_and_dir_resolution.1 ["prod"] ["prod"]).mpr (by decide)
  · have h := c9_name_and_dir_resolution.2 [⟨"prod", "infra/prod", ""⟩] "infra/prod"
      (by decide) (by decide)
    rw [h]
    decide

/-- Counterexample to C9 as stated: a token equal to a configured project
directory (but not its name) is rejected by the TypeScript resolution with
the unknown-project error, even though the Go filter would match it. -/
theorem c9_dir_token_rejected_counterexample :
    validateProjectNames ["infra/prod"] ["prod"] =
      .error "Project \x27infra/prod\x27 not found in configuration. Available projects: prod" ∧
    filterProjects [⟨"prod", "infra/prod", ""⟩] "infra/prod" [] "" =
      [⟨"prod", "infra/prod", ""⟩] := by
  constructor
  · decide
  · decide

end TerraformAction
